import Mathlib

/-!
Verification of the camera laptop client (`dataset_creation/laptop_client.py`).

Strings from the Python source are modelled as `List Char`; raw socket bytes
as `List Nat`.  A decoded image (the result of `cv2.imdecode`) is abstract:
`Frame := List Nat`, and the decoding pipeline (`pickle.loads` followed by
`cv2.imdecode`) is an arbitrary function parameter `decode`, since both are
delegated to external libraries.

The stream socket is modelled by the list `data` of all bytes the server
sends before closing the connection, together with a fragmentation oracle
`sched : Nat → Nat`: the i-th call to `recv n` returns
`min (sched i + 1) (min n data.length)` bytes — at least one byte while the
connection still has data (blocking recv), `0` once the stream is exhausted
(connection closed), and never more than requested.  This covers every way
the transport can fragment the byte stream.
-/

/-- `struct.unpack("!L", bs)`: big-endian base-256 value of a byte list. -/
def beDecode (bs : List Nat) : Nat :=
  bs.foldl (fun a b => a * 256 + b) 0

/-- One accumulation loop of `receive_frames`: keep calling `recv` until
`need` bytes are gathered.  `cap` is the per-call request bound (`4` for the
length prefix, where the request is exactly the missing count, `4096` for the
payload, mirroring `recv(min(4096, frame_size - len(frame_data)))`).
Returns the bytes read, the remaining stream, and the next oracle index;
`none` models the `ConnectionError("Connection lost")` raised on a zero-byte
read.  `fuel ≥ need` suffices since every successful read returns ≥ 1 byte. -/
def recvLoop (cap : Nat) : Nat → List Nat → (Nat → Nat) → Nat → Nat →
    Option (List Nat × List Nat × Nat)
  | 0, data, _, i, need => if need = 0 then some ([], data, i) else none
  | fuel + 1, data, sched, i, need =>
    if need = 0 then some ([], data, i)
    else
      let c := min (sched i + 1) (min (min cap need) data.length)
      if c = 0 then none
      else
        match recvLoop cap fuel (data.drop c) sched (i + 1) (need - c) with
        | none => none
        | some (got, d2, i2) => some (data.take c ++ got, d2, i2)

/-- One iteration of the `receive_frames` loop body: read the 4-byte length
prefix, decode it big-endian, then read exactly that many payload bytes.
Returns the serialized payload, the unread rest of the stream, and the next
oracle index, or `none` on connection loss. -/
def recv_frame (data : List Nat) (sched : Nat → Nat) (i : Nat) :
    Option (List Nat × List Nat × Nat) :=
  match recvLoop 4 4 data sched i 4 with
  | none => none
  | some (sizeData, d1, i1) =>
    match recvLoop 4096 (beDecode sizeData) d1 sched i1 (beDecode sizeData) with
    | none => none
    | some (frameData, d2, i2) => some (frameData, d2, i2)

/-!
Decimal formatting.  Python's `f"{n:04d}"` is the decimal representation of
`n` left-padded with `'0'` to a minimum width; `strftime` fields are the same
with their respective widths (`%f` always carries six digits since
microseconds are below 1000000).  Digits are produced most significant
first; the fuel argument only drives structural recursion and is irrelevant
once it is at least `n`.
-/

/-- Decimal digit characters of `n`, most significant first (`fuel ≥ n`). -/
def natDigits (fuel n : Nat) : List Char :=
  if n < 10 then [Nat.digitChar n]
  else
    match fuel with
    | 0 => []
    | f + 1 => natDigits f (n / 10) ++ [Nat.digitChar (n % 10)]

/-- `str(n)` for a natural number: its decimal digit characters. -/
def pyRepr (n : Nat) : List Char :=
  natDigits n n

/-- `f"{n:0wd}"`: decimal representation left-padded with zeros to width `w`. -/
def zfill (w n : Nat) : List Char :=
  List.replicate (w - (pyRepr n).length) '0' ++ pyRepr n

/-- `datetime.now()`: the wall-clock fields used by
`strftime("%Y%m%d_%H%M%S_%f")`. -/
structure PyDateTime where
  year : Nat
  month : Nat
  day : Nat
  hour : Nat
  minute : Nat
  second : Nat
  microsecond : Nat
deriving DecidableEq

/-- `t.strftime("%Y%m%d_%H%M%S_%f")`. -/
def strftime_ts (t : PyDateTime) : List Char :=
  zfill 4 t.year ++ zfill 2 t.month ++ zfill 2 t.day ++ "_".toList ++
    zfill 2 t.hour ++ zfill 2 t.minute ++ zfill 2 t.second ++ "_".toList ++
    zfill 6 t.microsecond

/-- `datetime.now().strftime("%Y%m%d_%H%M%S_%f")[:-3]`: the timestamp used
in generated filenames (the Python slice removes the last three characters). -/
def timestamp_str (t : PyDateTime) : List Char :=
  (strftime_ts t).take ((strftime_ts t).length - 3)

/-- A decoded bitmap image (result of `cv2.imdecode`), kept abstract. -/
abbrev Frame := List Nat

/-- The local filesystem under the save directory: an overwrite-on-equal-path
association list, as `cv2.imwrite` replaces an existing file at the same
path. -/
def fsWrite (fs : List (List Char × Frame)) (p : List Char) (v : Frame) :
    List (List Char × Frame) :=
  match fs with
  | [] => [(p, v)]
  | e :: rest => if e.1 = p then (p, v) :: rest else e :: fsWrite rest p v

/-- The mutable fields of `CameraClient`, plus the local files it has
written.  `frame_lock` is represented by treating every lock-protected
critical section as a single atomic transition. -/
structure ClientState where
  running : Bool
  current_frame : Option Frame
  image_counter : Nat
  files : List (List Char × Frame)
deriving DecidableEq

/-- State right after `start` sets `running` and launches the receiver
thread, before any frame has arrived. -/
def init_state : ClientState :=
  { running := true, current_frame := none, image_counter := 0, files := [] }

/-- `"ball_dataset_local"`, the process-lifetime local save directory. -/
def local_save_dir : List Char :=
  "ball_dataset_local".toList

/-- `response.split(":", 1)[1]`: everything after the first colon. -/
def after_first_colon (r : List Char) : List Char :=
  (r.dropWhile (fun c => c != ':')).drop 1

/-- `save_image_remote`, given the command socket's behaviour: `none` models
a socket exception (caught, reported, and turned into failure), `some r` the
≤1024-byte UTF-8 response.  Returns the success flag and the text surfaced
to the operator (the extracted remote path on success, the full response on
failure, nothing on an exception). -/
def save_image_remote_result (response : Option (List Char)) :
    Bool × List Char :=
  match response with
  | none => (false, [])
  | some r =>
    if "SAVED:".toList.isPrefixOf r then (true, after_first_colon r)
    else (false, r)

/-- The boolean result of `save_image_remote`. -/
def save_image_remote (response : Option (List Char)) : Bool :=
  (save_image_remote_result response).1

/-- The part of `save_image_local` that runs after the `with self.frame_lock`
block has been released: filename generation (incrementing the counter on
the auto-generated branch) and the `cv2.imwrite` call, whose outcome is the
environment flag `writeOk`.  `frame` is the private copy taken under the
lock. -/
def save_local_write (s : ClientState) (frame : Frame)
    (filename : Option (List Char)) (ts : List Char) (writeOk : Bool) :
    Bool × ClientState :=
  let counter := match filename with
    | none => s.image_counter + 1
    | some _ => s.image_counter
  let fname := match filename with
    | none => "ball_dataset_".toList ++ zfill 4 (s.image_counter + 1) ++
        "_".toList ++ ts ++ ".jpg".toList
    | some f => f
  let filepath := local_save_dir ++ "/".toList ++ fname
  if writeOk then
    (true, { s with image_counter := counter,
                    files := fsWrite s.files filepath frame })
  else
    (false, { s with image_counter := counter })

/-- `save_image_local`: under the frame lock, fail if no frame has arrived,
otherwise copy the current frame; then (outside the lock) generate the
filename if none was supplied and attempt the JPEG write.  `ts` is the
timestamp text `datetime.now().strftime(...)[:-3]` of the call. -/
def save_image_local (s : ClientState) (filename : Option (List Char))
    (ts : List Char) (writeOk : Bool) : Bool × ClientState :=
  match s.current_frame with
  | none => (false, s)
  | some frame => save_local_write s frame filename ts writeOk

/-- One key event of the display loop, together with the environment it
interacts with: the command-socket response for remote saves, the timestamp
drawn for generated filenames, and the local write outcome. -/
inductive KeyAction where
  | remoteKey (response : Option (List Char))
  | localKey (ts : List Char) (writeOk : Bool)
  | bothKey (response : Option (List Char)) (ts : List Char) (writeOk : Bool)
deriving DecidableEq

/-- The `start` display-loop dispatch for the save keys `'s'`/space, `'l'`
and `'b'`. -/
def handle_key (s : ClientState) (a : KeyAction) : ClientState :=
  match a with
  | .remoteKey resp =>
    if save_image_remote resp then
      { s with image_counter := s.image_counter + 1 }
    else s
  | .localKey ts ok => (save_image_local s none ts ok).2
  | .bothKey resp ts ok =>
    let s1 := { s with image_counter := s.image_counter + 1 }
    let filename := "ball_dataset_".toList ++ zfill 4 s1.image_counter ++
      "_".toList ++ ts ++ ".jpg".toList
    let remote_success := save_image_remote resp
    let r := save_image_local s1 (some filename) ts ok
    if remote_success || r.1 then
      { r.2 with image_counter := r.2.image_counter + 1 }
    else r.2

/-- A sequence of display-loop key events. -/
def run_keys (s : ClientState) (ks : List KeyAction) : ClientState :=
  ks.foldl handle_key s

/-- One interleaving step of the two threads, at the granularity of the
critical sections guarded by `frame_lock`: the receiver publishes a decoded
frame, the display loop handles a key, or the display loop reads the slot
to render it (which does not modify state). -/
inductive SysEvent where
  | publish (payload : List Nat)
  | key (a : KeyAction)
  | displayRead

def sys_step (decode : List Nat → Frame) (s : ClientState) (e : SysEvent) :
    ClientState :=
  match e with
  | .publish p => { s with current_frame := some (decode p) }
  | .key a => handle_key s a
  | .displayRead => s

def sys_run (decode : List Nat → Frame) (s : ClientState)
    (es : List SysEvent) : ClientState :=
  es.foldl (sys_step decode) s

/-- The `receive_frames` loop body followed by its exception handler: on a
successful read the decoded frame is published (atomically, under the lock);
on connection loss the `except` clause only prints — the loop ends with the
client state, in particular `running`, untouched. -/
def receive_frames_step (decode : List Nat → Frame) (s : ClientState)
    (data : List Nat) (sched : Nat → Nat) (i : Nat) :
    ClientState × Option (List Nat × Nat) :=
  match recv_frame data sched i with
  | none => (s, none)
  | some (payload, d2, i2) =>
    ({ s with current_frame := some (decode payload) }, some (d2, i2))

/-- Soundness of the accumulation loop: a successful run reads exactly the
first `need` bytes of the stream, in order, and leaves exactly the rest. -/
theorem recvLoop_sound (cap : Nat) :
    ∀ (fuel need : Nat) (data : List Nat) (sched : Nat → Nat) (i : Nat)
      (got d2 : List Nat) (i2 : Nat),
      need ≤ fuel →
      recvLoop cap fuel data sched i need = some (got, d2, i2) →
      got = data.take need ∧ d2 = data.drop need ∧ need ≤ data.length := by
  intro fuel
  induction fuel with
  | zero =>
    intro need data sched i got d2 i2 hle h
    have hneed : need = 0 := Nat.le_zero.mp hle
    subst hneed
    simp [recvLoop] at h
    obtain ⟨h1, h2, _⟩ := h
    simp [← h1, ← h2]
  | succ f ih =>
    intro need data sched i got d2 i2 hle h
    by_cases hz : need = 0
    · subst hz
      simp [recvLoop] at h
      obtain ⟨h1, h2, _⟩ := h
      simp [← h1, ← h2]
    · rw [recvLoop, if_neg hz] at h
      set c := min (sched i + 1) (min (min cap need) data.length) with hc
      by_cases hc0 : c = 0
      · rw [if_pos hc0] at h; exact absurd h (by simp)
      · rw [if_neg hc0] at h
        cases hrec : recvLoop cap f (data.drop c) sched (i + 1) (need - c) with
        | none => rw [hrec] at h; exact absurd h (by simp)
        | some out =>
          obtain ⟨g2, dd2, ii2⟩ := out
          rw [hrec] at h
          simp at h
          obtain ⟨hg, hd, _⟩ := h
          have hcneed : c ≤ need := by omega
          have hclen : c ≤ data.length := by omega
          have hrle : need - c ≤ f := by omega
          obtain ⟨ih1, ih2, ih3⟩ := ih (need - c) (data.drop c) sched (i + 1) g2 dd2 ii2 hrle hrec
          refine ⟨?_, ?_, ?_⟩
          · rw [← hg, ih1, ← List.take_add]
            congr 1
            omega
          · rw [← hd, ih2, List.drop_drop]
            congr 1
            omega
          · rw [List.length_drop] at ih3
            omega

/-- Completeness of the accumulation loop: with enough bytes in the stream
and a positive request bound, the loop always succeeds (no hang, no error),
whatever the fragmentation oracle does. -/
theorem recvLoop_complete (cap : Nat) :
    ∀ (fuel need : Nat) (data : List Nat) (sched : Nat → Nat) (i : Nat),
      need ≤ fuel → need ≤ data.length → 1 ≤ cap →
      ∃ got d2 i2, recvLoop cap fuel data sched i need = some (got, d2, i2) := by
  intro fuel
  induction fuel with
  | zero =>
    intro need data sched i hle _ _
    have hneed : need = 0 := Nat.le_zero.mp hle
    subst hneed
    exact ⟨[], data, i, by simp [recvLoop]⟩
  | succ f ih =>
    intro need data sched i hle hlen hcap
    by_cases hz : need = 0
    · subst hz
      exact ⟨[], data, i, by simp [recvLoop]⟩
    · rw [recvLoop, if_neg hz]
      set c := min (sched i + 1) (min (min cap need) data.length) with hc
      have hc0 : c ≠ 0 := by
        have h1 : 1 ≤ need := Nat.one_le_iff_ne_zero.mpr hz
        have h2 : 1 ≤ data.length := le_trans h1 hlen
        omega
      rw [if_neg hc0]
      have hrle : need - c ≤ f := by omega
      have hrlen : need - c ≤ (data.drop c).length := by
        rw [List.length_drop]
        omega
      obtain ⟨g2, dd2, ii2, hrec⟩ := ih (need - c) (data.drop c) sched (i + 1) hrle hrlen hcap
      rw [hrec]
      exact ⟨data.take c ++ g2, dd2, ii2, rfl⟩

/-- Frame-level soundness: a successful `recv_frame` consumed exactly the
4 prefix bytes and then exactly `L` payload bytes, where `L` is the
big-endian value of the prefix. -/
theorem recv_frame_sound (data : List Nat) (sched : Nat → Nat) (i : Nat)
    (payload d2 : List Nat) (i2 : Nat)
    (h : recv_frame data sched i = some (payload, d2, i2)) :
    payload = (data.drop 4).take (beDecode (data.take 4)) ∧
    payload.length = beDecode (data.take 4) ∧
    d2 = data.drop (4 + beDecode (data.take 4)) ∧
    4 + beDecode (data.take 4) ≤ data.length := by
  rw [recv_frame] at h
  split at h
  · exact absurd h (by simp)
  · rename_i sizeData d1 i1 h1
    obtain ⟨hs1, hs2, hs3⟩ :=
      recvLoop_sound 4 4 4 data sched i sizeData d1 i1 (le_refl 4) h1
    split at h
    · exact absurd h (by simp)
    · rename_i frameData dd2 ii2 h2
      simp at h
      obtain ⟨hp, hd, _⟩ := h
      obtain ⟨hf1, hf2, hf3⟩ :=
        recvLoop_sound 4096 (beDecode sizeData) (beDecode sizeData) d1 sched i1
          frameData dd2 ii2 (le_refl _) h2
      subst hs1 hs2
      refine ⟨by rw [← hp, hf1], ?_, ?_, ?_⟩
      · rw [← hp, hf1, List.length_take]
        omega
      · rw [← hd, hf2, List.drop_drop]
      · rw [List.length_drop] at hf3
        omega

/-- Frame-level completeness: whenever the stream still holds a full frame
(4 prefix bytes plus the declared payload), `recv_frame` succeeds for every
fragmentation oracle. -/
theorem recv_frame_complete (data : List Nat) (sched : Nat → Nat) (i : Nat)
    (h : 4 + beDecode (data.take 4) ≤ data.length) :
    ∃ payload d2 i2, recv_frame data sched i = some (payload, d2, i2) := by
  obtain ⟨sizeData, d1, i1, h1⟩ :=
    recvLoop_complete 4 4 4 data sched i (le_refl 4) (by omega) (by omega)
  obtain ⟨hs1, hs2, _⟩ :=
    recvLoop_sound 4 4 4 data sched i sizeData d1 i1 (le_refl 4) h1
  have hlen1 : beDecode sizeData ≤ d1.length := by
    rw [hs1, hs2, List.length_drop]
    omega
  obtain ⟨frameData, dd2, ii2, h2⟩ :=
    recvLoop_complete 4096 (beDecode sizeData) (beDecode sizeData) d1 sched i1
      (le_refl _) hlen1 (by omega)
  refine ⟨frameData, dd2, ii2, ?_⟩
  rw [recv_frame]
  simp [h1, h2]

theorem natDigits_small (fuel n : Nat) (h : n < 10) :
    natDigits fuel n = [Nat.digitChar n] := by
  cases fuel <;> simp [natDigits, h]

theorem natDigits_succ (f n : Nat) (h : ¬ n < 10) :
    natDigits (f + 1) n = natDigits f (n / 10) ++ [Nat.digitChar (n % 10)] := by
  simp [natDigits, h]

theorem natDigits_fuel (f1 f2 n : Nat) (h1 : n ≤ f1) (h2 : n ≤ f2) :
    natDigits f1 n = natDigits f2 n := by
  induction f1 generalizing f2 n with
  | zero =>
    have : n = 0 := Nat.le_zero.mp h1
    subst this
    rw [natDigits_small 0 0 (by omega), natDigits_small f2 0 (by omega)]
  | succ f ih =>
    by_cases hn : n < 10
    · rw [natDigits_small (f + 1) n hn, natDigits_small f2 n hn]
    · cases f2 with
      | zero => omega
      | succ g =>
        rw [natDigits_succ f n hn, natDigits_succ g n hn,
          ih g (n / 10) (by omega) (by omega)]

theorem pyRepr_step (n : Nat) (h : 10 ≤ n) :
    pyRepr n = pyRepr (n / 10) ++ [Nat.digitChar (n % 10)] := by
  have h1 : natDigits n n = natDigits ((n - 1) + 1) n := by
    congr 1
    omega
  rw [pyRepr, h1, natDigits_succ (n - 1) n (by omega),
    natDigits_fuel (n - 1) (n / 10) (n / 10) (by omega) (le_refl _)]
  rfl

theorem pyRepr_len (k : Nat) :
    ∀ n, n < 10 ^ (k + 1) → (pyRepr n).length ≤ k + 1 := by
  induction k with
  | zero =>
    intro n hn
    simp at hn
    rw [pyRepr, natDigits_small n n hn]
    simp
  | succ k ih =>
    intro n hn
    by_cases h : n < 10
    · rw [pyRepr, natDigits_small n n h]
      simp
    · have hdivlt : n / 10 < 10 ^ (k + 1) := by
        refine Nat.div_lt_of_lt_mul ?_
        rw [pow_succ] at hn
        omega
      rw [pyRepr_step n (by omega), List.length_append]
      have := ih (n / 10) hdivlt
      simp
      omega

theorem zfill_len (w n : Nat) (h : (pyRepr n).length ≤ w) :
    (zfill w n).length = w := by
  rw [zfill, List.length_append, List.length_replicate]
  omega

/-- Splitting off the last three digits of a six-digit zero-padded field:
the first three characters of `zfill 6 n` for `n < 1000000` are the
zero-padded representation of `n / 1000`. -/
theorem zfill_six_split (n : Nat) (h : n < 1000000) :
    ∃ tail : List Char,
      zfill 6 n = zfill 3 (n / 1000) ++ tail ∧ tail.length = 3 := by
  by_cases hn : n < 1000
  · have hdiv : n / 1000 = 0 := Nat.div_eq_of_lt hn
    have hlen : (pyRepr n).length ≤ 3 := by
      refine pyRepr_len 2 n ?_
      norm_num
      omega
    refine ⟨zfill 3 n, ?_, zfill_len 3 n hlen⟩
    rw [hdiv]
    have hz0 : zfill 3 0 = List.replicate 3 '0' := by decide
    rw [hz0, zfill, zfill]
    have h63 : 6 - (pyRepr n).length = 3 + (3 - (pyRepr n).length) := by omega
    rw [h63, List.replicate_add, List.append_assoc]
  · have h10 : 10 ≤ n := by omega
    have h10b : 10 ≤ n / 10 := by omega
    have h10c : 10 ≤ n / 100 := by omega
    have e1 : n / 10 / 10 = n / 100 := by
      rw [Nat.div_div_eq_div_mul]
    have e2 : n / 100 / 10 = n / 1000 := by
      rw [Nat.div_div_eq_div_mul]
    have hsplit : pyRepr n = pyRepr (n / 1000) ++
        [Nat.digitChar (n / 100 % 10), Nat.digitChar (n / 10 % 10),
          Nat.digitChar (n % 10)] := by
      rw [pyRepr_step n h10, pyRepr_step (n / 10) h10b, e1,
        pyRepr_step (n / 100) h10c, e2]
      simp
    have hlen3 : (pyRepr (n / 1000)).length ≤ 3 := by
      refine pyRepr_len 2 (n / 1000) ?_
      norm_num
      omega
    refine ⟨[Nat.digitChar (n / 100 % 10), Nat.digitChar (n / 10 % 10),
      Nat.digitChar (n % 10)], ?_, rfl⟩
    rw [zfill, zfill, hsplit, List.length_append]
    simp only [List.length_cons, List.length_nil]
    have h63 : 6 - ((pyRepr (n / 1000)).length + (0 + 1 + 1 + 1)) =
        3 - (pyRepr (n / 1000)).length := by
      omega
    rw [h63, List.append_assoc]

theorem save_local_write_frame (s : ClientState) (frame : Frame)
    (fn : Option (List Char)) (ts : List Char) (ok : Bool) :
    (save_local_write s frame fn ts ok).2.current_frame = s.current_frame := by
  cases fn <;> cases ok <;> rfl

theorem save_image_local_frame (s : ClientState) (fn : Option (List Char))
    (ts : List Char) (ok : Bool) :
    (save_image_local s fn ts ok).2.current_frame = s.current_frame := by
  rw [save_image_local]
  cases h : s.current_frame with
  | none => exact h
  | some frame => rw [save_local_write_frame, h]

theorem handle_key_frame (s : ClientState) (a : KeyAction) :
    (handle_key s a).current_frame = s.current_frame := by
  cases a with
  | remoteKey resp =>
    rw [handle_key]
    by_cases h : save_image_remote resp <;> simp [h]
  | localKey ts ok => exact save_image_local_frame s none ts ok
  | bothKey resp ts ok =>
    rw [handle_key]
    dsimp only
    split
    · exact save_image_local_frame _ _ ts ok
    · exact save_image_local_frame _ _ ts ok

theorem handle_remote_counter (s : ClientState) (r : List Char)
    (h : "SAVED:".toList.isPrefixOf r) :
    handle_key s (.remoteKey (some r)) =
      { s with image_counter := s.image_counter + 1 } := by
  rw [handle_key]
  rw [if_pos]
  rw [save_image_remote, save_image_remote_result, if_pos h]

theorem save_image_local_auto (s : ClientState) (fr : Frame)
    (ts : List Char) (hf : s.current_frame = some fr) :
    save_image_local s none ts true =
      (true, { s with image_counter := s.image_counter + 1,
                      files := fsWrite s.files (local_save_dir ++ "/".toList ++
                        ("ball_dataset_".toList ++ zfill 4 (s.image_counter + 1) ++
                          "_".toList ++ ts ++ ".jpg".toList)) fr }) := by
  conv_lhs => rw [save_image_local, hf]
  rfl

theorem save_image_local_named (s : ClientState) (fr : Frame)
    (f ts : List Char) (hf : s.current_frame = some fr) :
    save_image_local s (some f) ts true =
      (true, { s with files := fsWrite s.files
                        (local_save_dir ++ "/".toList ++ f) fr }) := by
  conv_lhs => rw [save_image_local, hf]
  rfl

theorem handle_local_counter (s : ClientState) (fr : Frame) (ts : List Char)
    (hf : s.current_frame = some fr) :
    (handle_key s (.localKey ts true)).image_counter = s.image_counter + 1 := by
  rw [handle_key, save_image_local_auto s fr ts hf]

theorem handle_both_counter (s : ClientState) (fr : Frame) (r ts : List Char)
    (hf : s.current_frame = some fr)
    (hr : "SAVED:".toList.isPrefixOf r) :
    (handle_key s (.bothKey (some r) ts true)).image_counter =
      s.image_counter + 2 := by
  have hrem : save_image_remote (some r) = true := by
    rw [save_image_remote, save_image_remote_result, if_pos hr]
  have hf1 : ClientState.current_frame
      { s with image_counter := s.image_counter + 1 } = some fr := hf
  simp only [handle_key, hrem, Bool.true_or, if_true]
  rw [save_image_local_named _ fr _ ts hf1]

theorem fsWrite_fsWrite (fs : List (List Char × Frame)) (p : List Char)
    (v w : Frame) : fsWrite (fsWrite fs p v) p w = fsWrite fs p w := by
  induction fs with
  | nil => simp [fsWrite]
  | cons e rest ih =>
    by_cases h : e.1 = p
    · simp [fsWrite, h]
    · simp [fsWrite, h, ih]

theorem after_first_colon_saved (t : List Char) :
    after_first_colon ("SAVED:".toList ++ t) = t := rfl

/-- C2: for every frame whose 4-byte big-endian prefix declares payload
length `L` and every fragmentation of the transport, the receiver consumes
exactly `4 + L` bytes — the first 4 as the prefix, then exactly `L` payload
bytes — before the payload is handed to deserialization; and whenever the
stream still holds that many bytes the read succeeds. -/
theorem receiver_consumes_exact_frame_bytes
    (data : List Nat) (sched : Nat → Nat) (i : Nat) :
    (4 + beDecode (data.take 4) ≤ data.length →
      ∃ payload d2 i2, recv_frame data sched i = some (payload, d2, i2)) ∧
    (∀ payload d2 i2, recv_frame data sched i = some (payload, d2, i2) →
      payload = (data.drop 4).take (beDecode (data.take 4)) ∧
      payload.length = beDecode (data.take 4) ∧
      d2 = data.drop (4 + beDecode (data.take 4))) := by
  refine ⟨recv_frame_complete data sched i, fun payload d2 i2 h => ?_⟩
  obtain ⟨h1, h2, h3, _⟩ := recv_frame_sound data sched i payload d2 i2 h
  exact ⟨h1, h2, h3⟩

theorem receiver_consumes_exact_frame_bytes_witness :
    recv_frame [0, 0, 0, 3, 10, 20, 30, 99] (fun _ => 0) 0 =
      some ([10, 20, 30], [99], 7) ∧
    ([10, 20, 30] : List Nat) =
      (([0, 0, 0, 3, 10, 20, 30, 99] : List Nat).drop 4).take
        (beDecode (([0, 0, 0, 3, 10, 20, 30, 99] : List Nat).take 4)) ∧
    ([10, 20, 30] : List Nat).length =
      beDecode (([0, 0, 0, 3, 10, 20, 30, 99] : List Nat).take 4) ∧
    ([99] : List Nat) = ([0, 0, 0, 3, 10, 20, 30, 99] : List Nat).drop
      (4 + beDecode (([0, 0, 0, 3, 10, 20, 30, 99] : List Nat).take 4)) := by
  refine ⟨by decide, ?_⟩
  exact (receiver_consumes_exact_frame_bytes [0, 0, 0, 3, 10, 20, 30, 99]
    (fun _ => 0) 0).2 [10, 20, 30] [99] 7 (by decide)

/-- C3: if the connection closes (zero-byte read) before a complete prefix
or payload arrives — here, whenever the stream holds fewer than `4 + L`
bytes in total — the receiver fails with the connection-lost condition
(`none`, i.e. `ConnectionError`) instead of hanging, and the handler leaves
the whole client state, including the `running` flag, untouched: only the
receiver loop ends. -/
theorem receiver_connection_lost_on_short_stream
    (decode : List Nat → Frame) (s : ClientState) (data : List Nat)
    (sched : Nat → Nat) (i : Nat)
    (h : data.length < 4 + beDecode (data.take 4)) :
    recv_frame data sched i = none ∧
    receive_frames_step decode s data sched i = (s, none) := by
  have hnone : recv_frame data sched i = none := by
    cases heq : recv_frame data sched i with
    | none => rfl
    | some out =>
      obtain ⟨p, d2, i2⟩ := out
      have := (recv_frame_sound data sched i p d2 i2 heq).2.2.2
      omega
  exact ⟨hnone, by rw [receive_frames_step, hnone]⟩

set_option maxRecDepth 4000 in

theorem receiver_connection_lost_on_short_stream_witness :
    (([0, 0, 3, 232] ++ List.replicate 500 7 : List Nat).length <
      4 + beDecode (([0, 0, 3, 232] ++ List.replicate 500 7 : List Nat).take 4)) ∧
    recv_frame ([0, 0, 3, 232] ++ List.replicate 500 7) (fun _ => 4095) 0 = none ∧
    receive_frames_step (fun _ => []) init_state
      ([0, 0, 3, 232] ++ List.replicate 500 7) (fun _ => 4095) 0 =
      (init_state, none) := by
  refine ⟨by decide, ?_⟩
  exact receiver_connection_lost_on_short_stream (fun _ => []) init_state
    ([0, 0, 3, 232] ++ List.replicate 500 7) (fun _ => 4095) 0 (by decide)

/-- C4: a command-socket response starting with `"SAVED:"` yields success
with the extracted path being the entire remainder after the first colon;
any other response yields failure with the full response text surfaced. -/
theorem remote_save_response_parsing (r : List Char) :
    ("SAVED:".toList.isPrefixOf r →
      save_image_remote_result (some r) = (true, r.drop 6)) ∧
    (¬ "SAVED:".toList.isPrefixOf r →
      save_image_remote_result (some r) = (false, r)) := by
  constructor
  · intro h
    rw [save_image_remote_result, if_pos h]
    obtain ⟨t, ht⟩ := List.isPrefixOf_iff_prefix.mp h
    subst ht
    rw [after_first_colon_saved]
    rfl
  · intro h
    rw [save_image_remote_result, if_neg h]

theorem remote_save_response_parsing_witness :
    ("SAVED:".toList.isPrefixOf "SAVED:/data/img001.jpg".toList ∧
      save_image_remote_result (some "SAVED:/data/img001.jpg".toList) =
        (true, "/data/img001.jpg".toList)) ∧
    (¬ "SAVED:".toList.isPrefixOf "ERROR:disk full".toList ∧
      save_image_remote_result (some "ERROR:disk full".toList) =
        (false, "ERROR:disk full".toList)) := by
  refine ⟨⟨by decide, ?_⟩, ⟨by decide, ?_⟩⟩
  · exact (remote_save_response_parsing "SAVED:/data/img001.jpg".toList).1
      (by decide)
  · exact (remote_save_response_parsing "ERROR:disk full".toList).2 (by decide)

theorem sys_run_frame (decode : List Nat → Frame) (es : List SysEvent) :
    ∀ s : ClientState,
      (sys_run decode s es).current_frame = s.current_frame ∨
      ∃ p, SysEvent.publish p ∈ es ∧
        (sys_run decode s es).current_frame = some (decode p) := by
  induction es with
  | nil => intro s; left; rfl
  | cons e es ih =>
    intro s
    have hstep : sys_run decode s (e :: es) =
        sys_run decode (sys_step decode s e) es := rfl
    rw [hstep]
    rcases ih (sys_step decode s e) with h | ⟨p, hp, h⟩
    · cases e with
      | publish p =>
        right
        refine ⟨p, by simp, ?_⟩
        rw [h]
        rfl
      | key a =>
        left
        rw [h]
        exact handle_key_frame s a
      | displayRead => left; exact h
    · right
      exact ⟨p, by simp [hp], h⟩

/-- C5: across every interleaving of receiver-loop and display-loop steps
(each lock-protected critical section being one atomic step), the shared
frame slot holds either the initial empty state or a frame published fully
decoded by the receiver; and a publish atomically replaces the previous
frame, leaving every other field intact. -/
theorem frame_slot_none_or_fully_decoded (decode : List Nat → Frame)
    (es : List SysEvent) (s : ClientState) (p : List Nat) :
    ((sys_run decode init_state es).current_frame = none ∨
      ∃ q, SysEvent.publish q ∈ es ∧
        (sys_run decode init_state es).current_frame = some (decode q)) ∧
    sys_run decode s (es ++ [SysEvent.publish p]) =
      { sys_run decode s es with current_frame := some (decode p) } := by
  constructor
  · rcases sys_run_frame decode es init_state with h | h
    · left; rw [h]; rfl
    · right; exact h
  · rw [sys_run, List.foldl_append]
    rfl

/-- C6: if no frame has been published the local save fails with the state
(hence the filesystem) untouched; otherwise the work splits into the
lock-protected snapshot and the write phase `save_local_write`, and the
write phase is independent of the shared slot: changing the slot contents
(as a concurrent publish would after the lock is released) alters neither
the success flag nor any other field of the outcome — it operates on the
private copy `fr` only. -/
theorem local_save_lock_discipline (s : ClientState) (fn : Option (List Char))
    (ts : List Char) (ok : Bool) (fr : Frame) (g : Option Frame) :
    (s.current_frame = none → save_image_local s fn ts ok = (false, s)) ∧
    ((save_local_write { s with current_frame := g } fr fn ts ok).1 =
      (save_local_write s fr fn ts ok).1) ∧
    ((save_local_write { s with current_frame := g } fr fn ts ok).2 =
      { (save_local_write s fr fn ts ok).2 with current_frame := g }) ∧
    (s.current_frame = some fr →
      save_image_local s fn ts ok = save_local_write s fr fn ts ok) := by
  refine ⟨?_, ?_, ?_, ?_⟩
  · intro h
    rw [save_image_local, h]
  · cases fn <;> cases ok <;> rfl
  · cases fn <;> cases ok <;> rfl
  · intro h
    rw [save_image_local, h]

theorem local_save_lock_discipline_witness :
    (save_image_local init_state none "t".toList true = (false, init_state)) ∧
    (save_image_local { init_state with current_frame := some [5] }
        (some "a.jpg".toList) "t".toList true =
      save_local_write { init_state with current_frame := some [5] } [5]
        (some "a.jpg".toList) "t".toList true) ∧
    ((save_local_write { init_state with current_frame := some [9] } [5]
        (some "a.jpg".toList) "t".toList true).1 =
      (save_local_write init_state [5]
        (some "a.jpg".toList) "t".toList true).1) := by
  refine ⟨?_, ?_, ?_⟩
  · exact (local_save_lock_discipline init_state none "t".toList true []
      none).1 rfl
  · exact (local_save_lock_discipline
      { init_state with current_frame := some [5] } (some "a.jpg".toList)
      "t".toList true [5] none).2.2.2 rfl
  · exact (local_save_lock_discipline init_state (some "a.jpg".toList)
      "t".toList true [5] (some [9])).2.1

/-- C7: both save operations are total boolean-returning functions — a
socket exception (`none` response), a non-`SAVED:` response, a failed
`cv2.imwrite`, or the absence of a frame each produce the failure result
`false`; no path raises out of the call. -/
theorem save_calls_report_failure_never_raise (resp : List Char)
    (s : ClientState) (fn : Option (List Char)) (ts : List Char) (ok : Bool) :
    save_image_remote none = false ∧
    (¬ "SAVED:".toList.isPrefixOf resp →
      save_image_remote (some resp) = false) ∧
    ((save_image_local s fn ts false).1 = false) ∧
    (s.current_frame = none → (save_image_local s fn ts ok).1 = false) := by
  refine ⟨rfl, ?_, ?_, ?_⟩
  · intro h
    rw [save_image_remote, save_image_remote_result, if_neg h]
  · rw [save_image_local]
    cases h : s.current_frame with
    | none => rfl
    | some fr => rfl
  · intro h
    rw [save_image_local, h]

theorem save_calls_report_failure_never_raise_witness :
    (¬ "SAVED:".toList.isPrefixOf "ERROR:disk full".toList ∧
      save_image_remote (some "ERROR:disk full".toList) = false) ∧
    ((save_image_local { init_state with current_frame := some [5] }
        none "t".toList false).1 = false) ∧
    (init_state.current_frame = none ∧
      (save_image_local init_state none "t".toList true).1 = false) := by
  refine ⟨⟨by decide, ?_⟩, ?_, ⟨rfl, ?_⟩⟩
  · exact (save_calls_report_failure_never_raise "ERROR:disk full".toList
      init_state none "t".toList true).2.1 (by decide)
  · exact (save_calls_report_failure_never_raise []
      { init_state with current_frame := some [5] } none "t".toList
      true).2.2.1
  · exact (save_calls_report_failure_never_raise [] init_state none
      "t".toList true).2.2.2 rfl

theorem run_keys_remote (rs : List (List Char)) :
    ∀ s : ClientState, (∀ r ∈ rs, "SAVED:".toList.isPrefixOf r) →
      (run_keys s (rs.map (fun r => KeyAction.remoteKey (some r)))).image_counter
        = s.image_counter + rs.length := by
  induction rs with
  | nil => intro s _; simp [run_keys]
  | cons r rs ih =>
    intro s h
    have hstep : run_keys s ((r :: rs).map (fun r => KeyAction.remoteKey (some r)))
        = run_keys (handle_key s (.remoteKey (some r)))
            (rs.map (fun r => KeyAction.remoteKey (some r))) := rfl
    rw [hstep, handle_remote_counter s r (h r (by simp)),
      ih _ (fun x hx => h x (by simp [hx]))]
    simp
    omega

theorem run_keys_local (tss : List (List Char)) :
    ∀ (s : ClientState) (fr : Frame), s.current_frame = some fr →
      (run_keys s (tss.map (fun ts => KeyAction.localKey ts true))).image_counter
        = s.image_counter + tss.length := by
  induction tss with
  | nil => intro s fr _; simp [run_keys]
  | cons ts tss ih =>
    intro s fr hf
    have hstep : run_keys s ((ts :: tss).map (fun ts => KeyAction.localKey ts true))
        = run_keys (handle_key s (.localKey ts true))
            (tss.map (fun ts => KeyAction.localKey ts true)) := rfl
    have hf2 : (handle_key s (.localKey ts true)).current_frame = some fr := by
      rw [handle_key_frame, hf]
    rw [hstep, ih _ fr hf2, handle_local_counter s fr ts hf]
    simp
    omega

theorem run_keys_both (ps : List (List Char × List Char)) :
    ∀ (s : ClientState) (fr : Frame), s.current_frame = some fr →
      (∀ p ∈ ps, "SAVED:".toList.isPrefixOf p.1) →
      (run_keys s (ps.map (fun p => KeyAction.bothKey (some p.1) p.2 true))).image_counter
        = s.image_counter + 2 * ps.length := by
  induction ps with
  | nil => intro s fr _ _; simp [run_keys]
  | cons p ps ih =>
    intro s fr hf h
    have hstep : run_keys s ((p :: ps).map (fun p => KeyAction.bothKey (some p.1) p.2 true))
        = run_keys (handle_key s (.bothKey (some p.1) p.2 true))
            (ps.map (fun p => KeyAction.bothKey (some p.1) p.2 true)) := rfl
    have hf2 : (handle_key s (.bothKey (some p.1) p.2 true)).current_frame = some fr := by
      rw [handle_key_frame, hf]
    rw [hstep, ih _ fr hf2 (fun x hx => h x (by simp [hx])),
      handle_both_counter s fr p.1 p.2 hf (h p (by simp))]
    simp
    omega

/-- C1 counterexample: starting from counter 0 with a frame available,
three successful local-only saves (no filename supplied) leave the counter
at 3, not 0 — `save_image_local` increments the counter on its
auto-generated-filename branch. -/
theorem local_saves_move_counter_cex :
    (save_image_local
      { running := true, current_frame := some [0], image_counter := 0,
        files := [] } none "t1".toList true).1 = true ∧
    (save_image_local (save_image_local
      { running := true, current_frame := some [0], image_counter := 0,
        files := [] } none "t1".toList true).2 none "t2".toList true).1 = true ∧
    (save_image_local (save_image_local (save_image_local
      { running := true, current_frame := some [0], image_counter := 0,
        files := [] } none "t1".toList true).2 none "t2".toList true).2
        none "t3".toList true).1 = true ∧
    (save_image_local (save_image_local (save_image_local
      { running := true, current_frame := some [0], image_counter := 0,
        files := [] } none "t1".toList true).2 none "t2".toList true).2
        none "t3".toList true).2.image_counter = 3 ∧
    ¬ (save_image_local (save_image_local (save_image_local
      { running := true, current_frame := some [0], image_counter := 0,
        files := [] } none "t1".toList true).2 none "t2".toList true).2
        none "t3".toList true).2.image_counter = 0 := by
  decide

/-- C1 (amended): starting from any counter, after `N` successful
remote-only saves the counter rises by `N`; after `N` successful local-only
saves (no filename supplied) it also rises by `N`, since the
auto-generated-filename branch increments it; and after `N` 'both' actions
in which both sides succeed it rises by `2 * N` — one unconditional
increment before the shared filename is generated plus one more when either
save succeeds. -/
theorem save_counter_arithmetic_amended (s : ClientState) (fr : Frame) :
    ((∀ rs : List (List Char), (∀ r ∈ rs, "SAVED:".toList.isPrefixOf r) →
      (run_keys s (rs.map (fun r => KeyAction.remoteKey (some r)))).image_counter
        = s.image_counter + rs.length)) ∧
    (s.current_frame = some fr →
      ∀ tss : List (List Char),
        (run_keys s (tss.map (fun ts => KeyAction.localKey ts true))).image_counter
          = s.image_counter + tss.length) ∧
    (s.current_frame = some fr →
      ∀ ps : List (List Char × List Char),
        (∀ p ∈ ps, "SAVED:".toList.isPrefixOf p.1) →
        (run_keys s (ps.map (fun p => KeyAction.bothKey (some p.1) p.2 true))).image_counter
          = s.image_counter + 2 * ps.length) := by
  exact ⟨fun rs h => run_keys_remote rs s h,
    fun hf tss => run_keys_local tss s fr hf,
    fun hf ps h => run_keys_both ps s fr hf h⟩

theorem save_counter_arithmetic_amended_witness :
    ((run_keys
      { running := true, current_frame := some [0], image_counter := 0,
        files := [] }
      (["SAVED:a".toList, "SAVED:b".toList, "SAVED:c".toList].map
        (fun r => KeyAction.remoteKey (some r)))).image_counter = 0 + 3) ∧
    ((run_keys
      { running := true, current_frame := some [0], image_counter := 0,
        files := [] }
      (["t1".toList, "t2".toList, "t3".toList].map
        (fun ts => KeyAction.localKey ts true))).image_counter = 0 + 3) ∧
    ((run_keys
      { running := true, current_frame := some [0], image_counter := 0,
        files := [] }
      ([("SAVED:a".toList, "t1".toList), ("SAVED:b".toList, "t2".toList)].map
        (fun p => KeyAction.bothKey (some p.1) p.2 true))).image_counter
        = 0 + 2 * 2) := by
  have h := save_counter_arithmetic_amended
    { running := true, current_frame := some [0], image_counter := 0,
      files := [] } [0]
  exact ⟨h.1 _ (by decide), h.2.1 rfl _, h.2.2 rfl _ (by decide)⟩

theorem take_minus_three (X Z W tl : List Char) (hz6 : Z.length = 6)
    (hsplit : Z = W ++ tl) (htl : tl.length = 3) (hw : W.length = 3) :
    (X ++ Z).take ((X ++ Z).length - 3) = X ++ W := by
  have h1 : (X ++ Z).length - 3 = X.length + 3 := by
    rw [List.length_append]
    omega
  rw [h1, List.take_append 3, hsplit, List.take_left' hw]

/-- The generated timestamp is `YYYYMMDD_HHMMSS_` followed by the three
millisecond digits: slicing off the last three characters of the `%f` field
keeps the zero-padded value of `microsecond / 1000`. -/
theorem timestamp_str_spec (t : PyDateTime) (h : t.microsecond < 1000000) :
    timestamp_str t =
      zfill 4 t.year ++ zfill 2 t.month ++ zfill 2 t.day ++ "_".toList ++
      zfill 2 t.hour ++ zfill 2 t.minute ++ zfill 2 t.second ++ "_".toList ++
      zfill 3 (t.microsecond / 1000) ∧
    (zfill 3 (t.microsecond / 1000)).length = 3 := by
  have hz3 : (zfill 3 (t.microsecond / 1000)).length = 3 := by
    refine zfill_len 3 _ (pyRepr_len 2 _ ?_)
    norm_num
    omega
  obtain ⟨tl, hsplit, htl⟩ := zfill_six_split t.microsecond h
  have hz6 : (zfill 6 t.microsecond).length = 6 := by
    rw [hsplit, List.length_append, hz3, htl]
  refine ⟨?_, hz3⟩
  have hstr : strftime_ts t =
      (zfill 4 t.year ++ zfill 2 t.month ++ zfill 2 t.day ++ "_".toList ++
        zfill 2 t.hour ++ zfill 2 t.minute ++ zfill 2 t.second ++ "_".toList) ++
      zfill 6 t.microsecond := by
    rw [strftime_ts]
  rw [timestamp_str, hstr,
    take_minus_three _ _ _ tl hz6 hsplit htl hz3]

/-- C8: an auto-generated local filename is
`ball_dataset_<seq>_<timestamp>.jpg` written into the local save directory,
where `<seq>` is the 4-digit zero-padded incremented counter and
`<timestamp>` is `YYYYMMDD_HHMMSS_mmm` — the strftime fields with the
6-digit microsecond field truncated to its 3 leading (millisecond)
digits. -/
theorem generated_filename_format (s : ClientState) (fr : Frame)
    (t : PyDateTime) (hf : s.current_frame = some fr)
    (hus : t.microsecond < 1000000) (hctr : s.image_counter + 1 < 10000) :
    (save_image_local s none (timestamp_str t) true).2.files =
      fsWrite s.files (local_save_dir ++ "/".toList ++
        ("ball_dataset_".toList ++ zfill 4 (s.image_counter + 1) ++
          "_".toList ++ timestamp_str t ++ ".jpg".toList)) fr ∧
    (zfill 4 (s.image_counter + 1)).length = 4 ∧
    timestamp_str t =
      zfill 4 t.year ++ zfill 2 t.month ++ zfill 2 t.day ++ "_".toList ++
      zfill 2 t.hour ++ zfill 2 t.minute ++ zfill 2 t.second ++ "_".toList ++
      zfill 3 (t.microsecond / 1000) ∧
    (zfill 3 (t.microsecond / 1000)).length = 3 := by
  refine ⟨?_, ?_, (timestamp_str_spec t hus).1, (timestamp_str_spec t hus).2⟩
  · rw [save_image_local_auto s fr (timestamp_str t) hf]
  · refine zfill_len 4 _ (pyRepr_len 3 _ ?_)
    norm_num
    omega

theorem generated_filename_format_witness :
    ((save_image_local
      { running := true, current_frame := some [0], image_counter := 0,
        files := [] } none
      (timestamp_str ⟨2025, 1, 2, 3, 4, 5, 123456⟩) true).2.files =
      fsWrite [] (local_save_dir ++ "/".toList ++
        ("ball_dataset_".toList ++ zfill 4 1 ++ "_".toList ++
          timestamp_str ⟨2025, 1, 2, 3, 4, 5, 123456⟩ ++ ".jpg".toList)) [0]) ∧
    (zfill 4 1).length = 4 ∧
    timestamp_str ⟨2025, 1, 2, 3, 4, 5, 123456⟩ =
      zfill 4 2025 ++ zfill 2 1 ++ zfill 2 2 ++ "_".toList ++
      zfill 2 3 ++ zfill 2 4 ++ zfill 2 5 ++ "_".toList ++
      zfill 3 (123456 / 1000) ∧
    (zfill 3 (123456 / 1000)).length = 3 :=
  generated_filename_format
    { running := true, current_frame := some [0], image_counter := 0,
      files := [] } [0] ⟨2025, 1, 2, 3, 4, 5, 123456⟩ rfl
    (by decide) (by decide)

/-- C9: with an explicit filename the destination filepath is independent of
the counter and identical across calls, so a second save with the same
filename overwrites the same single file — the set of file paths does not
grow — and performs no counter-dependent filename generation (the counter is
untouched). -/
theorem local_save_explicit_filename_idempotent (s : ClientState)
    (fr : Frame) (f ts1 ts2 : List Char) (hf : s.current_frame = some fr) :
    (save_image_local s (some f) ts1 true).2.files =
      fsWrite s.files (local_save_dir ++ "/".toList ++ f) fr ∧
    (save_image_local (save_image_local s (some f) ts1 true).2
        (some f) ts2 true).2.files =
      fsWrite s.files (local_save_dir ++ "/".toList ++ f) fr ∧
    ((save_image_local (save_image_local s (some f) ts1 true).2
        (some f) ts2 true).2.files.map Prod.fst =
      (save_image_local s (some f) ts1 true).2.files.map Prod.fst) ∧
    (save_image_local (save_image_local s (some f) ts1 true).2
        (some f) ts2 true).2.image_counter = s.image_counter := by
  have h1 := save_image_local_named s fr f ts1 hf
  have hf1 : (save_image_local s (some f) ts1 true).2.current_frame =
      some fr := by
    rw [save_image_local_frame, hf]
  have h2 := save_image_local_named (save_image_local s (some f) ts1 true).2
    fr f ts2 hf1
  refine ⟨by rw [h1], ?_, ?_, ?_⟩
  · rw [h2]
    show fsWrite (save_image_local s (some f) ts1 true).2.files _ fr = _
    rw [h1]
    exact fsWrite_fsWrite s.files _ fr fr
  · rw [h2]
    show (fsWrite (save_image_local s (some f) ts1 true).2.files _ fr).map
      Prod.fst = _
    rw [h1]
    show (fsWrite (fsWrite s.files _ fr) _ fr).map Prod.fst = _
    rw [fsWrite_fsWrite]
  · rw [h2]
    show (save_image_local s (some f) ts1 true).2.image_counter =
      s.image_counter
    rw [h1]

theorem local_save_explicit_filename_idempotent_witness :
    ((save_image_local
      { running := true, current_frame := some [7], image_counter := 0,
        files := [] } (some "x.jpg".toList) "t1".toList true).2.files =
      fsWrite [] (local_save_dir ++ "/".toList ++ "x.jpg".toList) [7]) ∧
    ((save_image_local (save_image_local
      { running := true, current_frame := some [7], image_counter := 0,
        files := [] } (some "x.jpg".toList) "t1".toList true).2
        (some "x.jpg".toList) "t2".toList true).2.files =
      fsWrite [] (local_save_dir ++ "/".toList ++ "x.jpg".toList) [7]) ∧
    ((save_image_local (save_image_local
      { running := true, current_frame := some [7], image_counter := 0,
        files := [] } (some "x.jpg".toList) "t1".toList true).2
        (some "x.jpg".toList) "t2".toList true).2.files.map Prod.fst =
      (save_image_local
      { running := true, current_frame := some [7], image_counter := 0,
        files := [] } (some "x.jpg".toList) "t1".toList true).2.files.map
        Prod.fst) ∧
    (save_image_local (save_image_local
      { running := true, current_frame := some [7], image_counter := 0,
        files := [] } (some "x.jpg".toList) "t1".toList true).2
        (some "x.jpg".toList) "t2".toList true).2.image_counter = 0 :=
  local_save_explicit_filename_idempotent
    { running := true, current_frame := some [7], image_counter := 0,
      files := [] } [7] "x.jpg".toList "t1".toList "t2".toList rfl

/-- C10: the counter is mutated only on the auto-generated-filename branch
of the local save: with an explicit filename the call leaves the counter
unchanged whatever the write outcome; with no filename and no frame the
whole state is unchanged; with no filename and a frame available the
counter is incremented by exactly one, before (hence independently of) the
write outcome. -/
theorem local_save_counter_frame_condition (s : ClientState)
    (f ts : List Char) (ok : Bool) (fr : Frame) :
    ((save_image_local s (some f) ts ok).2.image_counter = s.image_counter) ∧
    (s.current_frame = none → (save_image_local s none ts ok).2 = s) ∧
    (s.current_frame = some fr →
      (save_image_local s none ts ok).2.image_counter =
        s.image_counter + 1) := by
  refine ⟨?_, ?_, ?_⟩
  · rw [save_image_local]
    cases h : s.current_frame with
    | none => rfl
    | some g => cases ok <;> rfl
  · intro h
    rw [save_image_local, h]
  · intro h
    rw [save_image_local, h]
    cases ok <;> rfl

theorem local_save_counter_frame_condition_witness :
    ((save_image_local
      { running := true, current_frame := some [7], image_counter := 5,
        files := [] } (some "x.jpg".toList) "t".toList false).2.image_counter
      = 5) ∧
    ((save_image_local init_state none "t".toList false).2 = init_state) ∧
    ((save_image_local
      { running := true, current_frame := some [7], image_counter := 5,
        files := [] } none "t".toList false).2.image_counter = 5 + 1) := by
  refine ⟨?_, ?_, ?_⟩
  · exact (local_save_counter_frame_condition
      { running := true, current_frame := some [7], image_counter := 5,
        files := [] } "x.jpg".toList "t".toList false [7]).1
  · exact (local_save_counter_frame_condition init_state "x.jpg".toList
      "t".toList false []).2.1 rfl
  · exact (local_save_counter_frame_condition
      { running := true, current_frame := some [7], image_counter := 5,
        files := [] } "x.jpg".toList "t".toList false [7]).2.2 rfl
